import Mathlib

/-!
Verification of the QuizRush Campaign engine (src/main.py): the client-side
quiz session state machine and scoring formula embedded in the served page,
and the server-side registration, referral, score-submission, leaderboard
eligibility and leaderboard-view operations.
-/

namespace QuizRush

/-! ## Client-side quiz session state machine

Shallow embedding of the JavaScript session state object `state` (main.py
lines 984-992) restricted to the fields the scoring logic touches, plus a
`revealed` flag modelling the DOM effect of `lockOptions`/`showExplanation`
(reveal of the correct option and explanation). -/

structure ClientState where
  levelScore : Nat
  totalScore : Nat
  correctCount : Nat
  streak : Nat
  bestStreak : Nat
  answered : Bool
  timeLeft : Nat
  revealed : Bool
deriving DecidableEq

/-- The option letters array `['A','B','C','D']` used by `selectAnswer`. -/
def letters : List String := ["A", "B", "C", "D"]

/-- The inline points expression of `selectAnswer` (main.py line 1118):
`100 + (state.timeLeft * 3) + (state.streak >= 3 ? 50 : 0)`, evaluated
after the streak has been incremented for this correct answer. -/
def scoreFor (timeLeft : Nat) (streak : Nat) : Nat :=
  100 + timeLeft * 3 + (if streak ≥ 3 then 50 else 0)

/-- `selectAnswer(idx, correctLetter, explanation)` (main.py lines
1107-1127): no-op when `state.answered` is already set; otherwise sets
`answered`, reveals the answer, and either scores a correct pick
(streak, bestStreak, correctCount, points into level and total score)
or resets the streak for a wrong pick. -/
def selectAnswer (s : ClientState) (idx : Nat) (correctLetter : String) :
    ClientState :=
  if s.answered then s
  else
    let s1 : ClientState := { s with answered := true, revealed := true }
    if letters.getD idx "" = correctLetter then
      let streak := s1.streak + 1
      let pts := scoreFor s1.timeLeft streak
      { s1 with
        streak := streak
        bestStreak := max s1.bestStreak streak
        correctCount := s1.correctCount + 1
        levelScore := s1.levelScore + pts
        totalScore := s1.totalScore + pts }
    else
      { s1 with streak := 0 }

/-- One tick of the countdown interval installed by `startTimer` (main.py
lines 1081-1097): decrement `timeLeft`; when it reaches 0 the timer stops
and, if no answer was recorded, the streak is reset and the correct answer
is revealed. Note the expiry branch never sets `state.answered`. -/
def timerTick (s : ClientState) : ClientState :=
  let s1 : ClientState := { s with timeLeft := s.timeLeft - 1 }
  if s1.timeLeft = 0 then
    if s1.answered = false then
      { s1 with streak := 0, revealed := true }
    else s1
  else s1

/-! ## Server-side data model

Embedding of the `users` table (main.py lines 43-53). The UUID primary key
is modelled as a `Nat`, timestamps as minutes since an arbitrary epoch.
`score` and `retries_left` are `Int` after the `Integer` columns. The store
is the ordered list of rows; `query(...).first()` is `List.find?`. -/

structure StoredUser where
  id : Nat
  name : String
  phone : String
  score : Int
  referral_code : String
  referred_by : Option String
  retries_left : Int
  eligible_for_leaderboard : Bool
  created_at : Int
deriving DecidableEq

/-- Mutating the single ORM object returned by `.first()` and committing:
apply `f` to the first row matching `uid`, leave the rest unchanged. -/
def updateUser (store : List StoredUser) (uid : Nat)
    (f : StoredUser → StoredUser) : List StoredUser :=
  match store with
  | [] => []
  | u :: rest =>
      if u.id = uid then f u :: rest else u :: updateUser rest uid f

/-- Row lookup by primary key, as in `db.query(User).filter(User.id == user_id).first()`. -/
def findUser (store : List StoredUser) (uid : Nat) : Option StoredUser :=
  store.find? (fun u => u.id == uid)

/-- The stored score of a user, when the user exists. -/
def scoreOf (store : List StoredUser) (uid : Nat) : Option Int :=
  (findUser store uid).map (·.score)

/-- The stored retry count of a user, when the user exists. -/
def retriesOf (store : List StoredUser) (uid : Nat) : Option Int :=
  (findUser store uid).map (·.retries_left)

/-- The stored leaderboard-eligibility flag of a user, when the user exists. -/
def eligibleOf (store : List StoredUser) (uid : Nat) : Option Bool :=
  (findUser store uid).map (·.eligible_for_leaderboard)

/-- `POST /submit-score` (main.py lines 1318-1326): 404 when the user id is
unknown; overwrite the stored score only when the candidate is strictly
greater; reply with the stored score after the call. -/
def submit_score (store : List StoredUser) (user_id : Nat) (score : Int) :
    Except String (List StoredUser × Int) :=
  match findUser store user_id with
  | none => .error "User not found"
  | some user =>
      if score > user.score then
        .ok (updateUser store user_id (fun u => { u with score := score }), score)
      else
        .ok (store, user.score)

/-- The row `/register` inserts: score 0, retries_left 1 and eligibility
false are the column defaults (main.py lines 43-53), the id and referral
code are the randomly generated values, `referred_by` is stored as-is. -/
def newUser (now : Int) (freshId : Nat) (freshCode : String)
    (name phone : String) (referred_by : Option String) : StoredUser :=
  { id := freshId, name := name, phone := phone, score := 0
    referral_code := freshCode, referred_by := referred_by
    retries_left := 1, eligible_for_leaderboard := false
    created_at := now }

/-- `POST /register` (main.py lines 1281-1303), with the randomly generated
id and referral code passed in as parameters. The new row is inserted;
then, when `referred_by` is truthy (neither absent nor the empty string),
the first user whose referral_code matches — searched after the insert, so
over the whole table — has retries_left incremented. Returns the new store
and the created row. -/
def register (store : List StoredUser) (now : Int) (freshId : Nat)
    (freshCode : String) (name phone : String)
    (referred_by : Option String) : List StoredUser × StoredUser :=
  let user := newUser now freshId freshCode name phone referred_by
  let store1 := store ++ [user]
  match referred_by with
  | none => (store1, user)
  | some code =>
      if code = "" then (store1, user)
      else
        match store1.find? (fun u => u.referral_code == code) with
        | none => (store1, user)
        | some ref =>
            (updateUser store1 ref.id
              (fun u => { u with retries_left := u.retries_left + 1 }), user)

/-- Modelled from the spec: the repository source has no `consumeRetry`
operation and no `/retry` endpoint (only the `retries_left` column and the
referral increment exist in src/main.py); §4.3 of the spec defines it:
NotFoundError for an unknown userId; when retriesLeft > 0, decrement by 1
and report granted=true; otherwise report granted=false with the count
unchanged. -/
def consumeRetry (store : List StoredUser) (userId : Nat) :
    Except String (List StoredUser × Bool × Int) :=
  match findUser store userId with
  | none => .error "User not found"
  | some user =>
      if user.retries_left > 0 then
        .ok (updateUser store userId
              (fun u => { u with retries_left := u.retries_left - 1 }),
            true, user.retries_left - 1)
      else
        .ok (store, false, user.retries_left)

/-- The store after a `consumeRetry` call (unchanged when the call fails). -/
def consumeStep (store : List StoredUser) (userId : Nat) : List StoredUser :=
  match consumeRetry store userId with
  | .error _ => store
  | .ok (store1, _, _) => store1

/-- The store after a whole sequence of `consumeRetry` calls. -/
def consumeMany (store : List StoredUser) (userIds : List Nat) :
    List StoredUser :=
  userIds.foldl consumeStep store

/-- The store after a `submit_score` call (unchanged when the call fails). -/
def submitStep (store : List StoredUser) (userId : Nat) (score : Int) :
    List StoredUser :=
  match submit_score store userId score with
  | .error _ => store
  | .ok (store1, _) => store1

/-- The periodic eligibility sweep `update_leaderboard_eligibility`
(main.py lines 209-221): every row whose flag is false and whose age
`now - created_at` is at least 2 hours (120 minutes) gets the flag set. -/
def update_leaderboard_eligibility (store : List StoredUser) (now : Int) :
    List StoredUser :=
  store.map (fun u =>
    if u.eligible_for_leaderboard = false ∧ 120 ≤ now - u.created_at then
      { u with eligible_for_leaderboard := true }
    else u)

/-- One leaderboard entry `{rank, name, score}`. -/
structure LBEntry where
  rank : Nat
  name : String
  score : Int
deriving DecidableEq

/-- The descending-score ordering used by `order_by(User.score.desc())`;
ties are left in an arbitrary order by the database, modelled here by a
stable sort. -/
def byScoreDesc (a b : StoredUser) : Prop := b.score ≤ a.score

instance : DecidableRel byScoreDesc := fun a b =>
  inferInstanceAs (Decidable (b.score ≤ a.score))

instance : IsTotal StoredUser byScoreDesc :=
  ⟨fun a b => le_total b.score a.score⟩

instance : IsTrans StoredUser byScoreDesc :=
  ⟨fun _ _ _ h1 h2 => le_trans h2 h1⟩

/-- `GET /leaderboard` (main.py lines 1306-1315): filter the eligible
users, order by score descending, keep the first 10, and number them
rank 1, 2, ... in that order. Pure: the store is not modified. -/
def leaderboard (store : List StoredUser) : List LBEntry :=
  let users :=
    (((store.filter (fun u => u.eligible_for_leaderboard)).insertionSort
        byScoreDesc).take 10)
  users.enum.map (fun p => { rank := p.1 + 1, name := p.2.name, score := p.2.score })

/-- The `/register` request body `UserCreate` (main.py lines 234-237) as
received on the wire: `none` models a field that is absent from the JSON
body (or null), `some s` a present string value — including `some ""`. -/
structure RegisterPayload where
  name : Option String
  phone : Option String
  referred_by : Option String

/-- FastAPI/pydantic validation of `UserCreate`: `name` and `phone` are
required `str` fields, so a request missing either is rejected with a
validation error before the handler runs; any present string value,
including the empty string, passes. -/
def validate_register (p : RegisterPayload) :
    Except String (String × String × Option String) :=
  match p.name, p.phone with
  | some n, some ph => .ok (n, ph, p.referred_by)
  | _, _ => .error "validation error"

/-- The full `/register` endpoint: pydantic validation, then the handler.
On a validation error the handler never runs, so the store is returned
unchanged with the error. -/
def register_endpoint (store : List StoredUser) (now : Int) (freshId : Nat)
    (freshCode : String) (p : RegisterPayload) :
    List StoredUser × Except String StoredUser :=
  match validate_register p with
  | .error e => (store, .error e)
  | .ok (n, ph, ref) =>
      let r := register store now freshId freshCode n ph ref
      (r.1, .ok r.2)

/-! ## Question generation -/

/-- A question record `{question, options, answer, explanation}`. -/
structure Question where
  question : String
  options : List String
  answer : String
  explanation : String
deriving DecidableEq

/-- The relevant fields of the singleton `LeaderProfile` row. -/
structure LeaderProfileR where
  name : String
  position : String
  achievements : String
  manifesto : String
  personality : String
deriving DecidableEq

/-- `getattr(leader, field, "")` for the three content fields named by the
level configurations. -/
def getProfileField (leader : LeaderProfileR) (f : String) : String :=
  if f = "achievements" then leader.achievements
  else if f = "manifesto" then leader.manifesto
  else if f = "personality" then leader.personality
  else ""

/-- A level configuration, restricted to the field the generation logic
reads (the remaining entries, including the display name, only feed the
prompt text). -/
structure LevelConfig where
  field : String
deriving DecidableEq

/-- The `LEVEL_CONFIGS` dict (main.py lines 99-124): keys 1, 2, 3 only;
looking up any other key raises `KeyError`, modelled as `none`. -/
def LEVEL_CONFIGS (level : Int) : Option LevelConfig :=
  if level = 1 then some { field := "achievements" }
  else if level = 2 then some { field := "manifesto" }
  else if level = 3 then some { field := "personality" }
  else none

/-- The fixed fallback question list (main.py lines 191-205): one fixed
record repeated 5 times. The `level` parameter is unused in the source
too. -/
def get_fallback_questions (name : String) (level : Int) : List Question :=
  List.replicate 5
    { question := "Why should you vote for " ++ name ++ "?"
      options := ["They have a proven track record",
                  "They have a clear vision for students",
                  "They genuinely care about student welfare",
                  "All of the above"]
      answer := "D"
      explanation := name ++ " represents all of these qualities and more." }

/-- `generate_campaign_questions(leader, level)` (main.py lines 127-188).
The external generation collaborator is abstracted by `aiResult`: `none`
when the API call raises or its content fails to parse as JSON (the
`except` branch), `some qs` when `json.loads` succeeds on the reply.
The dict lookup `LEVEL_CONFIGS[level]` happens first, before every
fallback branch, and an unknown level therefore raises `KeyError`
(the `.error` case); with a known level the function always returns a
list: the fallback when the profile field is empty, when no API key is
configured or when the collaborator fails, and the parsed reply — whatever
its length — otherwise. -/
def generate_campaign_questions (leader : LeaderProfileR) (level : Int)
    (apiKey : String) (aiResult : Option (List Question)) :
    Except String (List Question) :=
  match LEVEL_CONFIGS level with
  | none => .error "KeyError"
  | some config =>
      let content := getProfileField leader config.field
      if content = "" then .ok (get_fallback_questions leader.name level)
      else if apiKey = "" then .ok (get_fallback_questions leader.name level)
      else
        match aiResult with
        | none => .ok (get_fallback_questions leader.name level)
        | some qs => .ok qs

/-! ## Concrete demonstration data -/

/-- A concrete stored user used to instantiate the theorems. -/
def demoA : StoredUser :=
  ⟨1, "Alice", "p1", 0, "REFCODEA", none, 1, false, 0⟩

/-- A second concrete stored user: no retries left, eligible, score 200. -/
def demoB : StoredUser :=
  ⟨2, "Bob", "p2", 200, "BCODE222", none, 0, true, 0⟩

/-! ## Helper lemmas about the row store -/

theorem findUser_updateUser_self (store : List StoredUser) (uid : Nat)
    (f : StoredUser → StoredUser) (hf : ∀ u, (f u).id = u.id) :
    findUser (updateUser store uid f) uid = (findUser store uid).map f := by
  induction store with
  | nil => rfl
  | cons a l ih =>
    by_cases h : a.id = uid
    · simp [updateUser, findUser, List.find?_cons, h, hf]
    · simp only [updateUser, if_neg h]
      simp only [findUser, List.find?_cons] at ih ⊢
      have hb : (a.id == uid) = false := by simpa using h
      simp [hb, ih]

theorem findUser_updateUser_ne (store : List StoredUser) (uid uid2 : Nat)
    (f : StoredUser → StoredUser) (hf : ∀ u, (f u).id = u.id)
    (hne : uid2 ≠ uid) :
    findUser (updateUser store uid f) uid2 = findUser store uid2 := by
  induction store with
  | nil => rfl
  | cons a l ih =>
    by_cases h : a.id = uid
    · have hb : (a.id == uid2) = false := by simp [h, Ne.symm hne]
      have hb2 : ((f a).id == uid2) = false := by simp [hf, h, Ne.symm hne]
      have hb3 : (uid == uid2) = false := by simp [Ne.symm hne]
      simp [updateUser, findUser, List.find?_cons, h, hb, hb2, hb3]
    · simp only [updateUser, if_neg h]
      simp only [findUser, List.find?_cons] at ih ⊢
      by_cases h2 : a.id = uid2 <;> simp [h2, ih]

theorem mem_updateUser (store : List StoredUser) (uid : Nat)
    (f : StoredUser → StoredUser) (v : StoredUser)
    (hv : v ∈ updateUser store uid f) :
    v ∈ store ∨ ∃ u, findUser store uid = some u ∧ v = f u := by
  induction store with
  | nil => simpa [updateUser] using hv
  | cons a l ih =>
    by_cases h : a.id = uid
    · simp only [updateUser, if_pos h] at hv
      rcases List.mem_cons.mp hv with h1 | h1
      · exact Or.inr ⟨a, by simp [findUser, List.find?_cons, h], h1⟩
      · exact Or.inl (List.mem_cons_of_mem _ h1)
    · simp only [updateUser, if_neg h] at hv
      rcases List.mem_cons.mp hv with h1 | h1
      · exact Or.inl (h1 ▸ List.mem_cons_self a l)
      · rcases ih h1 with h2 | ⟨u, hu, hvu⟩
        · exact Or.inl (List.mem_cons_of_mem _ h2)
        · refine Or.inr ⟨u, ?_, hvu⟩
          have hb : (a.id == uid) = false := by simpa using h
          simpa [findUser, List.find?_cons, hb] using hu

theorem findUser_append (l1 l2 : List StoredUser) (uid : Nat) :
    findUser (l1 ++ l2) uid = (findUser l1 uid).or (findUser l2 uid) := by
  simp [findUser, List.find?_append]

/-- Claim C1 (amended): for timeRemaining `t ≤ 30` and a correct answer, the
points added to the level score and to the running total equal
`100 + 3*t + (50 if streak-after-this-answer ≥ 3 else 0)`; in particular
`scoreFor 30 1 = 190`, `scoreFor 0 3 = 150`, `scoreFor 15 5 = 195`. -/
theorem selectAnswer_correct_points (st : ClientState) (idx : Nat)
    (correctLetter : String) (hna : st.answered = false)
    (ht : st.timeLeft ≤ 30) (hc : letters.getD idx "" = correctLetter) :
    (selectAnswer st idx correctLetter).levelScore
        = st.levelScore
          + (100 + 3 * st.timeLeft + (if st.streak + 1 ≥ 3 then 50 else 0))
      ∧ (selectAnswer st idx correctLetter).totalScore
        = st.totalScore
          + (100 + 3 * st.timeLeft + (if st.streak + 1 ≥ 3 then 50 else 0))
      ∧ scoreFor 30 1 = 190 ∧ scoreFor 0 3 = 150 ∧ scoreFor 15 5 = 195 := by
  have hc2 : letters[idx]?.getD "" = correctLetter := by
    simpa [List.getD] using hc
  refine ⟨?_, ?_, by decide, by decide, by decide⟩ <;>
    simp [selectAnswer, hna, hc2, scoreFor, Nat.mul_comm]

/-- Witness for `selectAnswer_correct_points` at a concrete state with
timeLeft 15 and streak 2 before the answer. -/
theorem selectAnswer_correct_points_witness :
    (selectAnswer ⟨0, 0, 0, 2, 2, false, 15, false⟩ 3 "D").levelScore
        = (ClientState.mk 0 0 0 2 2 false 15 false).levelScore
          + (100 + 3 * (ClientState.mk 0 0 0 2 2 false 15 false).timeLeft
            + (if (ClientState.mk 0 0 0 2 2 false 15 false).streak + 1 ≥ 3
                then 50 else 0))
      ∧ (selectAnswer ⟨0, 0, 0, 2, 2, false, 15, false⟩ 3 "D").totalScore
        = (ClientState.mk 0 0 0 2 2 false 15 false).totalScore
          + (100 + 3 * (ClientState.mk 0 0 0 2 2 false 15 false).timeLeft
            + (if (ClientState.mk 0 0 0 2 2 false 15 false).streak + 1 ≥ 3
                then 50 else 0))
      ∧ scoreFor 30 1 = 190 ∧ scoreFor 0 3 = 150 ∧ scoreFor 15 5 = 195 :=
  selectAnswer_correct_points ⟨0, 0, 0, 2, 2, false, 15, false⟩ 3 "D"
    rfl (by decide) rfl

/-- Claim C1 counterexample: with timeRemaining 0 and streak 3 counted after
the correct answer, the code awards 150 points (streak bonus 50), not the
claimed `100 + 3*0 + 30 = 130`: the level score does not rise by 130. -/
theorem selectAnswer_bonus_not_thirty :
    ¬ ((selectAnswer ⟨0, 0, 0, 2, 2, false, 0, false⟩ 3 "D").levelScore
        = 0 + (100 + 3 * 0 + 30)) := by
  decide

/-- Claim C2 at its failing input: from a live question with 1 second left,
streak 2 and no answer recorded, the countdown tick that reaches 0 reveals
the answer and resets the streak but leaves `answered` false, so a
subsequent (late) selection of the correct option is not a no-op: it
mutates the state again, awarding 100 points and incrementing
correctCount — while a selection that follows a selection is a no-op. -/
theorem timeout_then_selection_scores :
    (timerTick ⟨0, 0, 0, 2, 2, false, 1, false⟩).answered = false
      ∧ (timerTick ⟨0, 0, 0, 2, 2, false, 1, false⟩).revealed = true
      ∧ (timerTick ⟨0, 0, 0, 2, 2, false, 1, false⟩).streak = 0
      ∧ selectAnswer (timerTick ⟨0, 0, 0, 2, 2, false, 1, false⟩) 3 "D"
          ≠ timerTick ⟨0, 0, 0, 2, 2, false, 1, false⟩
      ∧ (selectAnswer (timerTick ⟨0, 0, 0, 2, 2, false, 1, false⟩) 3 "D").levelScore
          = 100
      ∧ (selectAnswer (timerTick ⟨0, 0, 0, 2, 2, false, 1, false⟩) 3 "D").correctCount
          = 1
      ∧ selectAnswer (selectAnswer ⟨0, 0, 0, 2, 2, false, 9, false⟩ 3 "D") 0 "D"
          = selectAnswer ⟨0, 0, 0, 2, 2, false, 9, false⟩ 3 "D" := by
  decide

/-- Claim C3: for a known user, `submit_score` overwrites the stored score
iff the candidate is strictly greater (so the stored score after the call
is the max of the two), changes nothing otherwise, and returns the stored
score after the call; a second call with the same candidate is a no-op
returning the same value, and the stored score never decreases. -/
theorem submit_score_spec (store : List StoredUser) (uid : Nat) (x : Int)
    (u : StoredUser) (hu : findUser store uid = some u) :
    ∃ store1,
      submit_score store uid x = .ok (store1, max u.score x)
      ∧ scoreOf store1 uid = some (max u.score x)
      ∧ (x ≤ u.score → store1 = store)
      ∧ (u.score < x →
          store1 = updateUser store uid (fun v => { v with score := x }))
      ∧ submit_score store1 uid x = .ok (store1, max u.score x)
      ∧ u.score ≤ max u.score x := by
  by_cases hx : u.score < x
  · refine ⟨updateUser store uid (fun v => { v with score := x }),
      ?_, ?_, ?_, fun _ => rfl, ?_, le_max_left _ _⟩
    · simp [submit_score, hu, hx, max_eq_right (le_of_lt hx)]
    · rw [scoreOf, findUser_updateUser_self store uid (fun v => { v with score := x }) (fun v => rfl), hu]
      simp [max_eq_right (le_of_lt hx)]
    · intro h; exact absurd hx (not_lt.mpr h)
    · have h2 : findUser (updateUser store uid
          (fun v => { v with score := x })) uid
            = some { u with score := x } := by
        rw [findUser_updateUser_self store uid (fun v => { v with score := x }) (fun v => rfl), hu]; rfl
      simp [submit_score, h2, max_eq_right (le_of_lt hx)]
  · have hmax : max u.score x = u.score := max_eq_left (not_lt.mp hx)
    refine ⟨store, ?_, ?_, fun _ => rfl, ?_, ?_, le_max_left _ _⟩
    · simp [submit_score, hu, hx, hmax]
    · simp [scoreOf, hu, hmax]
    · intro h; exact absurd h (not_lt.mp hx).not_lt
    · simp [submit_score, hu, hx, hmax]

/-- Witness for `submit_score_spec`: a one-row store with stored score 100
and candidate 300. -/
theorem submit_score_spec_witness :
    ∃ store1,
      submit_score [⟨1, "a", "p", 100, "AAAA1111", none, 1, false, 0⟩] 1 300
          = .ok (store1,
              max (StoredUser.mk 1 "a" "p" 100 "AAAA1111" none 1 false 0).score 300)
      ∧ scoreOf store1 1
          = some (max (StoredUser.mk 1 "a" "p" 100 "AAAA1111" none 1 false 0).score 300)
      ∧ (300 ≤ (StoredUser.mk 1 "a" "p" 100 "AAAA1111" none 1 false 0).score →
          store1 = [⟨1, "a", "p", 100, "AAAA1111", none, 1, false, 0⟩])
      ∧ ((StoredUser.mk 1 "a" "p" 100 "AAAA1111" none 1 false 0).score < 300 →
          store1 = updateUser [⟨1, "a", "p", 100, "AAAA1111", none, 1, false, 0⟩] 1
            (fun v => { v with score := 300 }))
      ∧ submit_score store1 1 300
          = .ok (store1,
              max (StoredUser.mk 1 "a" "p" 100 "AAAA1111" none 1 false 0).score 300)
      ∧ (StoredUser.mk 1 "a" "p" 100 "AAAA1111" none 1 false 0).score
          ≤ max (StoredUser.mk 1 "a" "p" 100 "AAAA1111" none 1 false 0).score 300 :=
  submit_score_spec [⟨1, "a", "p", 100, "AAAA1111", none, 1, false, 0⟩] 1 300
    ⟨1, "a", "p", 100, "AAAA1111", none, 1, false, 0⟩ rfl

/-- Claim C4: when the referral code resolves to an existing user A (and the
fresh id and fresh referral code do not collide with the request), `register`
increments A's retries_left by exactly 1 with no cap and leaves the new
registrant's retries_left at its initial value 1; when the code resolves to
no user, registration still succeeds with the code stored as-is and no
existing user's retries_left changes. -/
theorem register_referral_spec (store : List StoredUser) (now : Int)
    (freshId : Nat) (freshCode : String) (nm ph code : String)
    (hid : ∀ u ∈ store, u.id ≠ freshId) (hcode : freshCode ≠ code)
    (hne : code ≠ "") :
    (∀ A, store.find? (fun u => u.referral_code == code) = some A →
        findUser store A.id = some A →
        retriesOf (register store now freshId freshCode nm ph (some code)).1 A.id
            = some (A.retries_left + 1)
          ∧ retriesOf (register store now freshId freshCode nm ph (some code)).1
              freshId = some 1)
    ∧ ((∀ u ∈ store, u.referral_code ≠ code) →
        (register store now freshId freshCode nm ph (some code)).1
            = store ++ [(register store now freshId freshCode nm ph (some code)).2]
          ∧ (register store now freshId freshCode nm ph (some code)).2.referred_by
            = some code
          ∧ (register store now freshId freshCode nm ph (some code)).2.retries_left
            = 1
          ∧ ∀ uid u, findUser store uid = some u →
              retriesOf (register store now freshId freshCode nm ph (some code)).1
                uid = some u.retries_left) := by
  have hnuid : ∀ v : StoredUser,
      ((fun u : StoredUser => { u with retries_left := u.retries_left + 1 }) v).id
        = v.id :=
    fun v => rfl
  constructor
  · intro A hA hAid
    have hfind : ((store ++ [newUser now freshId freshCode nm ph (some code)]).find?
          (fun u => u.referral_code == code)) = some A := by
      rw [List.find?_append, hA]; rfl
    have hreg : register store now freshId freshCode nm ph (some code)
        = (updateUser (store ++ [newUser now freshId freshCode nm ph (some code)])
            A.id (fun u => { u with retries_left := u.retries_left + 1 }),
          newUser now freshId freshCode nm ph (some code)) := by
      simp only [register]
      rw [if_neg hne, hfind]
    rw [hreg]
    constructor
    · rw [retriesOf, findUser_updateUser_self _ _ _ hnuid, findUser_append, hAid]
      rfl
    · have hAmem : A ∈ store := List.mem_of_find?_eq_some hA
      have hfne : freshId ≠ A.id := (hid A hAmem).symm
      rw [retriesOf, findUser_updateUser_ne _ _ _ _ hnuid hfne, findUser_append]
      have h1 : findUser store freshId = none := by
        rw [findUser]
        exact List.find?_eq_none.mpr (fun u hu => by simpa using hid u hu)
      rw [h1]
      simp [findUser, newUser]
  · intro hnone
    have h1 : store.find? (fun u => u.referral_code == code) = none :=
      List.find?_eq_none.mpr (fun u hu => by simpa using hnone u hu)
    have hfind : ((store ++ [newUser now freshId freshCode nm ph (some code)]).find?
          (fun u => u.referral_code == code)) = none := by
      rw [List.find?_append, h1]
      simp [newUser, hcode]
    have hreg : register store now freshId freshCode nm ph (some code)
        = (store ++ [newUser now freshId freshCode nm ph (some code)],
          newUser now freshId freshCode nm ph (some code)) := by
      simp only [register]
      rw [if_neg hne, hfind]
    refine ⟨by rw [hreg], by rw [hreg]; rfl, by rw [hreg]; rfl, ?_⟩
    intro uid u hu
    rw [hreg, retriesOf, findUser_append, hu]
    rfl

/-- Witness for `register_referral_spec`: registering Bob with Alice's code
raises Alice's retries from 1 to 2 and leaves Bob's at 1; registering with
an unknown code appends the row unchanged and keeps Alice's retries at 1. -/
theorem register_referral_spec_witness :
    (retriesOf (register [demoA] 100 7 "NEWCODE1" "Bob" "p2" (some "REFCODEA")).1 1
        = some (demoA.retries_left + 1)
      ∧ retriesOf (register [demoA] 100 7 "NEWCODE1" "Bob" "p2" (some "REFCODEA")).1 7
        = some 1)
    ∧ ((register [demoA] 100 7 "NEWCODE1" "Bob" "p2" (some "ZZZZZZZZ")).1
        = [demoA] ++ [(register [demoA] 100 7 "NEWCODE1" "Bob" "p2" (some "ZZZZZZZZ")).2]
      ∧ (register [demoA] 100 7 "NEWCODE1" "Bob" "p2" (some "ZZZZZZZZ")).2.referred_by
        = some "ZZZZZZZZ"
      ∧ (register [demoA] 100 7 "NEWCODE1" "Bob" "p2" (some "ZZZZZZZZ")).2.retries_left
        = 1
      ∧ retriesOf (register [demoA] 100 7 "NEWCODE1" "Bob" "p2" (some "ZZZZZZZZ")).1 1
        = some demoA.retries_left) :=
  ⟨(register_referral_spec [demoA] 100 7 "NEWCODE1" "Bob" "p2" "REFCODEA"
      (by decide) (by decide) (by decide)).1 demoA (by decide) (by decide),
    let h := (register_referral_spec [demoA] 100 7 "NEWCODE1" "Bob" "p2" "ZZZZZZZZ"
      (by decide) (by decide) (by decide)).2 (by decide)
    ⟨h.1, h.2.1, h.2.2.1, h.2.2.2 1 demoA (by decide)⟩⟩

theorem consumeStep_nonneg (store : List StoredUser) (uid : Nat)
    (h : ∀ v ∈ store, 0 ≤ v.retries_left) :
    ∀ v ∈ consumeStep store uid, 0 ≤ v.retries_left := by
  intro v hv
  rcases hfind : findUser store uid with _ | u
  · rw [consumeStep, consumeRetry, hfind] at hv
    exact h v hv
  · by_cases hr : u.retries_left > 0
    · simp only [consumeStep, consumeRetry, hfind, if_pos hr] at hv
      rcases mem_updateUser _ _ _ _ hv with h1 | ⟨w, hw, hvw⟩
      · exact h v h1
      · rw [hfind] at hw
        cases hw
        subst hvw
        simp only []
        omega
    · simp only [consumeStep, consumeRetry, hfind, if_neg hr] at hv
      exact h v hv

theorem consumeMany_nonneg (uids : List Nat) (store : List StoredUser)
    (h : ∀ v ∈ store, 0 ≤ v.retries_left) :
    ∀ v ∈ consumeMany store uids, 0 ≤ v.retries_left := by
  induction uids generalizing store with
  | nil => simpa [consumeMany] using h
  | cons a l ih =>
      intro v hv
      exact ih (consumeStep store a) (consumeStep_nonneg store a h) v
        (by simpa [consumeMany] using hv)

/-- Claim C5 (spec-modelled): `consumeRetry` fails with NotFoundError for an
unknown userId; for a known user with retries_left > 0 it decrements the
count by exactly 1 and reports granted=true; with retries_left = 0 it
reports granted=false and changes nothing; and starting from any store
whose counts are all non-negative, no sequence of `consumeRetry` calls can
drive a count below 0. -/
theorem consumeRetry_spec (store : List StoredUser) (uid : Nat) :
    (findUser store uid = none →
      consumeRetry store uid = .error "User not found")
    ∧ (∀ u, findUser store uid = some u → 0 < u.retries_left →
        consumeRetry store uid
            = .ok (updateUser store uid
                (fun v => { v with retries_left := v.retries_left - 1 }),
              true, u.retries_left - 1)
          ∧ retriesOf (consumeStep store uid) uid = some (u.retries_left - 1))
    ∧ (∀ u, findUser store uid = some u → u.retries_left = 0 →
        consumeRetry store uid = .ok (store, false, u.retries_left)
          ∧ consumeStep store uid = store)
    ∧ (∀ uids, (∀ v ∈ store, 0 ≤ v.retries_left) →
        ∀ v ∈ consumeMany store uids, 0 ≤ v.retries_left) := by
  refine ⟨?_, ?_, ?_, fun uids h => consumeMany_nonneg uids store h⟩
  · intro hfind
    rw [consumeRetry, hfind]
  · intro u hfind hr
    constructor
    · simp only [consumeRetry, hfind, if_pos hr]
    · simp only [consumeStep, consumeRetry, hfind, if_pos hr]
      rw [retriesOf, findUser_updateUser_self store uid
        (fun v => { v with retries_left := v.retries_left - 1 }) (fun v => rfl),
        hfind]
      rfl
  · intro u hfind hr
    have hnr : ¬ u.retries_left > 0 := by omega
    constructor
    · simp only [consumeRetry, hfind, if_neg hnr]
    · simp only [consumeStep, consumeRetry, hfind, if_neg hnr]

/-- Witness for `consumeRetry_spec`: user id 9 is unknown; Alice (1 retry)
is granted a retry and drops to 0; Bob (0 retries) is refused with the
store unchanged; and no sequence of calls drives a count below 0. -/
theorem consumeRetry_spec_witness :
    (consumeRetry [demoA, demoB] 9 = .error "User not found")
    ∧ (consumeRetry [demoA, demoB] 1
          = .ok (updateUser [demoA, demoB] 1
              (fun v => { v with retries_left := v.retries_left - 1 }),
            true, demoA.retries_left - 1)
        ∧ retriesOf (consumeStep [demoA, demoB] 1) 1
          = some (demoA.retries_left - 1))
    ∧ (consumeRetry [demoA, demoB] 2 = .ok ([demoA, demoB], false, demoB.retries_left)
        ∧ consumeStep [demoA, demoB] 2 = [demoA, demoB])
    ∧ (∀ v ∈ consumeMany [demoA, demoB] [1, 1, 2, 1], 0 ≤ v.retries_left) :=
  ⟨(consumeRetry_spec [demoA, demoB] 9).1 (by decide),
    (consumeRetry_spec [demoA, demoB] 1).2.1 demoA (by decide) (by decide),
    (consumeRetry_spec [demoA, demoB] 2).2.2.1 demoB (by decide) (by decide),
    (consumeRetry_spec [demoA, demoB] 1).2.2.2 [1, 1, 2, 1] (by decide)⟩

theorem findUser_map_id (g : StoredUser → StoredUser)
    (hg : ∀ u, (g u).id = u.id) (store : List StoredUser) (uid : Nat) :
    findUser (store.map g) uid = (findUser store uid).map g := by
  induction store with
  | nil => rfl
  | cons a l ih =>
    by_cases h : a.id = uid
    · simp [findUser, List.find?_cons, hg, h]
    · have hb : ((g a).id == uid) = false := by simp [hg, h]
      have hb2 : (a.id == uid) = false := by simpa using h
      simp only [List.map_cons, findUser, List.find?_cons, hb, hb2,
        cond_false]
      exact ih

theorem eligibleOf_updateUser (store : List StoredUser) (uid2 : Nat)
    (f : StoredUser → StoredUser) (hf_id : ∀ u, (f u).id = u.id)
    (hf_el : ∀ u, (f u).eligible_for_leaderboard = u.eligible_for_leaderboard)
    (uid : Nat) :
    eligibleOf (updateUser store uid2 f) uid = eligibleOf store uid := by
  by_cases h : uid = uid2
  · subst h
    rw [eligibleOf, findUser_updateUser_self _ _ _ hf_id, eligibleOf]
    cases findUser store uid <;> simp [hf_el]
  · rw [eligibleOf, findUser_updateUser_ne _ _ _ _ hf_id h, eligibleOf]

theorem eligibleOf_append_left (store l2 : List StoredUser) (uid : Nat)
    (u : StoredUser) (hu : findUser store uid = some u) :
    eligibleOf (store ++ l2) uid = eligibleOf store uid := by
  rw [eligibleOf, findUser_append, hu, eligibleOf, hu]
  rfl

/-- Claim C6: one sweep run sets the flag of each user to its old value OR
the condition `age ≥ 120 minutes` — so it flips to true exactly the stale
rows old enough, touches nothing else — and the flag is a one-way ratchet:
a true flag survives any later sweep and every other modeled operation
(score submission, retry consumption, registration). -/
theorem eligibility_sweep_spec (store : List StoredUser) (now : Int) :
    (∀ uid u, findUser store uid = some u →
        eligibleOf (update_leaderboard_eligibility store now) uid
          = some (u.eligible_for_leaderboard || decide (120 ≤ now - u.created_at)))
    ∧ (∀ uid, eligibleOf store uid = some true →
        eligibleOf (update_leaderboard_eligibility store now) uid = some true)
    ∧ (∀ uid uid2 x, eligibleOf store uid = some true →
        eligibleOf (submitStep store uid2 x) uid = some true)
    ∧ (∀ uid uid2, eligibleOf store uid = some true →
        eligibleOf (consumeStep store uid2) uid = some true)
    ∧ (∀ uid freshId freshCode nm ph ref, eligibleOf store uid = some true →
        eligibleOf (register store now freshId freshCode nm ph ref).1 uid
          = some true) := by
  have hg : ∀ u : StoredUser,
      ((fun u : StoredUser =>
        if u.eligible_for_leaderboard = false ∧ 120 ≤ now - u.created_at then
          { u with eligible_for_leaderboard := true } else u) u).id = u.id := by
    intro u
    by_cases h : u.eligible_for_leaderboard = false ∧ 120 ≤ now - u.created_at <;>
      simp [h]
  have h1 : ∀ uid u, findUser store uid = some u →
      eligibleOf (update_leaderboard_eligibility store now) uid
        = some (u.eligible_for_leaderboard || decide (120 ≤ now - u.created_at)) := by
    intro uid u hu
    rw [eligibleOf, update_leaderboard_eligibility, findUser_map_id _ hg, hu]
    cases he : u.eligible_for_leaderboard <;>
      by_cases hc : 120 ≤ now - u.created_at <;> simp [he, hc]
  refine ⟨h1, ?_, ?_, ?_, ?_⟩
  · intro uid htrue
    rcases hfu : findUser store uid with _ | u
    · rw [eligibleOf, hfu] at htrue; cases htrue
    · have hel : u.eligible_for_leaderboard = true := by
        rw [eligibleOf, hfu] at htrue
        simpa using htrue
      rw [h1 uid u hfu, hel]
      simp
  · intro uid uid2 x htrue
    rcases hfind2 : findUser store uid2 with _ | w
    · simpa only [submitStep, submit_score, hfind2] using htrue
    · by_cases hx : x > w.score
      · simp only [submitStep, submit_score, hfind2, if_pos hx]
        rw [eligibleOf_updateUser store uid2
          (fun u : StoredUser => { u with score := x }) (fun v => rfl)
          (fun v => rfl)]
        exact htrue
      · simpa only [submitStep, submit_score, hfind2, if_neg hx] using htrue
  · intro uid uid2 htrue
    rcases hfind2 : findUser store uid2 with _ | w
    · simpa only [consumeStep, consumeRetry, hfind2] using htrue
    · by_cases hr : w.retries_left > 0
      · simp only [consumeStep, consumeRetry, hfind2, if_pos hr]
        rw [eligibleOf_updateUser store uid2
          (fun u : StoredUser => { u with retries_left := u.retries_left - 1 })
          (fun v => rfl) (fun v => rfl)]
        exact htrue
      · simpa only [consumeStep, consumeRetry, hfind2, if_neg hr] using htrue
  · intro uid freshId freshCode nm ph ref htrue
    rcases hfu : findUser store uid with _ | u
    · rw [eligibleOf, hfu] at htrue; cases htrue
    · have happ : eligibleOf
          (store ++ [newUser now freshId freshCode nm ph ref]) uid = some true := by
        rw [eligibleOf_append_left store _ uid u hfu]
        exact htrue
      rcases ref with _ | code
      · simpa only [register] using happ
      · by_cases hc : code = ""
        · simpa only [register, if_pos hc] using happ
        · rcases hfc : (store ++ [newUser now freshId freshCode nm ph (some code)]).find?
              (fun u => u.referral_code == code) with _ | refu
          · simp only [register, if_neg hc, hfc]
            exact happ
          · simp only [register, if_neg hc, hfc]
            rw [eligibleOf_updateUser _ refu.id
              (fun u : StoredUser => { u with retries_left := u.retries_left + 1 })
              (fun v => rfl) (fun v => rfl)]
            exact happ

/-- Witness for `eligibility_sweep_spec`: a sweep at minute 130 promotes
Alice (created at 0, not yet eligible, age 130 ≥ 120) and Bob's true flag
survives the sweep, a score submission, a retry consumption and a
registration. -/
theorem eligibility_sweep_spec_witness :
    eligibleOf (update_leaderboard_eligibility [demoA, demoB] 130) 1
        = some (demoA.eligible_for_leaderboard
            || decide (120 ≤ 130 - demoA.created_at))
      ∧ eligibleOf (update_leaderboard_eligibility [demoA, demoB] 130) 2
        = some true
      ∧ eligibleOf (submitStep [demoA, demoB] 1 500) 2 = some true
      ∧ eligibleOf (consumeStep [demoA, demoB] 1) 2 = some true
      ∧ eligibleOf (register [demoA, demoB] 130 7 "NEWCODE1" "Eve" "p3"
          (some "REFCODEA")).1 2 = some true :=
  ⟨(eligibility_sweep_spec [demoA, demoB] 130).1 1 demoA (by decide),
    (eligibility_sweep_spec [demoA, demoB] 130).2.1 2 (by decide),
    (eligibility_sweep_spec [demoA, demoB] 130).2.2.1 2 1 500 (by decide),
    (eligibility_sweep_spec [demoA, demoB] 130).2.2.2.1 2 1 (by decide),
    (eligibility_sweep_spec [demoA, demoB] 130).2.2.2.2 2 7 "NEWCODE1" "Eve" "p3"
      (some "REFCODEA") (by decide)⟩

/-- Claim C7: for every store state, the leaderboard holds at most 10
entries, only users whose eligibility flag is set, scores in non-increasing
order, and ranks 1..n in that order; the query reads the store and returns
entries without touching any user row (it is a pure function of the
store). -/
theorem leaderboard_spec (store : List StoredUser) :
    (leaderboard store).length ≤ 10
    ∧ (∀ e ∈ leaderboard store, ∃ u ∈ store,
        u.eligible_for_leaderboard = true ∧ e.name = u.name ∧ e.score = u.score)
    ∧ ((leaderboard store).map LBEntry.score).Pairwise (fun a b => b ≤ a)
    ∧ (leaderboard store).map LBEntry.rank
        = (List.range (leaderboard store).length).map (fun i => i + 1) := by
  have hlb : leaderboard store
      = (((store.filter (fun u => u.eligible_for_leaderboard)).insertionSort
          byScoreDesc).take 10).enum.map
        (fun p => { rank := p.1 + 1, name := p.2.name, score := p.2.score }) := rfl
  have hsorted : (((store.filter (fun u => u.eligible_for_leaderboard)).insertionSort
      byScoreDesc).take 10).Pairwise byScoreDesc :=
    List.Pairwise.sublist (List.take_sublist 10 _)
      (List.sorted_insertionSort byScoreDesc _)
  refine ⟨?_, ?_, ?_, ?_⟩
  · rw [hlb, List.length_map, List.enum_length, List.length_take]
    exact min_le_left _ _
  · intro e he
    rw [hlb] at he
    rcases List.mem_map.mp he with ⟨p, hp, rfl⟩
    have hsnd : p.2 ∈ ((store.filter
        (fun u => u.eligible_for_leaderboard)).insertionSort byScoreDesc).take 10 := by
      have h2 := List.mem_map_of_mem Prod.snd hp
      rwa [List.enum_map_snd] at h2
    have hmem : p.2 ∈ store.filter (fun u => u.eligible_for_leaderboard) := by
      have h3 := List.mem_of_mem_take hsnd
      rwa [List.mem_insertionSort] at h3
    rcases List.mem_filter.mp hmem with ⟨hst, hel⟩
    exact ⟨p.2, hst, by simpa using hel, rfl, rfl⟩
  · have hmap : (leaderboard store).map LBEntry.score
        = (((store.filter (fun u => u.eligible_for_leaderboard)).insertionSort
            byScoreDesc).take 10).map (fun u => u.score) := by
      rw [hlb, List.map_map]
      rw [show (LBEntry.score ∘ fun p : Nat × StoredUser =>
          LBEntry.mk (p.1 + 1) p.2.name p.2.score)
        = ((fun u : StoredUser => u.score) ∘ Prod.snd) from rfl]
      rw [← List.map_map, List.enum_map_snd]
    rw [hmap]
    exact List.pairwise_map.mpr (hsorted.imp (fun h => h))
  · rw [hlb, List.map_map]
    rw [show (LBEntry.rank ∘ fun p : Nat × StoredUser =>
        LBEntry.mk (p.1 + 1) p.2.name p.2.score)
      = ((fun i => i + 1) ∘ Prod.fst) from rfl]
    rw [← List.map_map, List.enum_map_fst, List.length_map, List.enum_length]

theorem length_updateUser (store : List StoredUser) (uid : Nat)
    (f : StoredUser → StoredUser) :
    (updateUser store uid f).length = store.length := by
  induction store with
  | nil => rfl
  | cons a l ih => by_cases h : a.id = uid <;> simp [updateUser, h, ih]

theorem length_register (store : List StoredUser) (now : Int) (freshId : Nat)
    (freshCode : String) (nm ph : String) (ref : Option String) :
    (register store now freshId freshCode nm ph ref).1.length
      = store.length + 1 := by
  rcases ref with _ | code
  · simp [register]
  · by_cases hc : code = ""
    · simp [register, hc]
    · rcases hfc : (store ++ [newUser now freshId freshCode nm ph (some code)]).find?
          (fun u => u.referral_code == code) with _ | refu
      · simp only [register, if_neg hc, hfc]
        simp
      · simp only [register, if_neg hc, hfc]
        rw [length_updateUser]
        simp

/-- Claim C8 (amended): registration is rejected with a validation error —
and no User row is created — exactly when the `name` or `phone` field is
absent from the request body; a present-but-empty string passes pydantic
validation, so a request with empty name and phone still creates a User
row. -/
theorem register_validation_spec (store : List StoredUser) (now : Int)
    (freshId : Nat) (freshCode : String) (p : RegisterPayload) :
    ((p.name = none ∨ p.phone = none) →
      (register_endpoint store now freshId freshCode p).1 = store
      ∧ (register_endpoint store now freshId freshCode p).2
          = .error "validation error")
    ∧ (∀ n ph, p.name = some n → p.phone = some ph →
      (register_endpoint store now freshId freshCode p).1.length
          = store.length + 1
      ∧ (register_endpoint store now freshId freshCode p).2
          = .ok (register store now freshId freshCode n ph p.referred_by).2) := by
  obtain ⟨pn, pp, pr⟩ := p
  constructor
  · rintro (h | h) <;> subst h
    · cases pp <;> simp [register_endpoint, validate_register]
    · cases pn <;> simp [register_endpoint, validate_register]
  · rintro n ph rfl rfl
    refine ⟨?_, ?_⟩
    · simp only [register_endpoint, validate_register]
      exact length_register store now freshId freshCode n ph pr
    · simp [register_endpoint, validate_register]

/-- Witness for `register_validation_spec`: a request missing `name` is
rejected leaving the store unchanged; a request with both fields present is
accepted and adds one row. -/
theorem register_validation_spec_witness :
    ((register_endpoint [demoA] 0 7 "NEWCODE1" ⟨none, some "p", none⟩).1 = [demoA]
      ∧ (register_endpoint [demoA] 0 7 "NEWCODE1" ⟨none, some "p", none⟩).2
          = .error "validation error")
    ∧ ((register_endpoint [demoA] 0 7 "NEWCODE1" ⟨some "Eve", some "p", none⟩).1.length
          = [demoA].length + 1
      ∧ (register_endpoint [demoA] 0 7 "NEWCODE1" ⟨some "Eve", some "p", none⟩).2
          = .ok (register [demoA] 0 7 "NEWCODE1" "Eve" "p"
              (RegisterPayload.mk (some "Eve") (some "p") none).referred_by).2) :=
  ⟨(register_validation_spec [demoA] 0 7 "NEWCODE1" ⟨none, some "p", none⟩).1
      (Or.inl rfl),
    (register_validation_spec [demoA] 0 7 "NEWCODE1" ⟨some "Eve", some "p", none⟩).2
      "Eve" "p" rfl rfl⟩

/-- Claim C8 counterexample: the request with name and phone present but
empty ("" is not "missing" to pydantic) is accepted — a User row is created
and the handler replies ok, contradicting "register fails with a
ValidationError and no User record is created" for empty fields. -/
theorem register_empty_strings_accepted :
    (register_endpoint [] 0 7 "NEWCODE1" ⟨some "", some "", none⟩).1.length = 1
    ∧ (register_endpoint [] 0 7 "NEWCODE1" ⟨some "", some "", none⟩).2
        = .ok (newUser 0 7 "NEWCODE1" "" "" none) := by
  exact ⟨rfl, rfl⟩

/-- Claim C9 (amended): with a valid level, question generation never
surfaces an error; in every failure situation — empty profile content,
missing API key, or a collaborator call that raises or returns unparseable
content (`aiResult = none`) — the fixed fallback set, which has exactly 5
records, is substituted; but a parseable collaborator reply is returned
as-is, whatever its length. -/
theorem questions_fallback_spec (leader : LeaderProfileR) (level : Int)
    (apiKey : String) (aiResult : Option (List Question))
    (config : LevelConfig) (hlevel : LEVEL_CONFIGS level = some config) :
    (∃ qs, generate_campaign_questions leader level apiKey aiResult = .ok qs)
    ∧ ((getProfileField leader config.field = "" ∨ apiKey = ""
          ∨ aiResult = none) →
        generate_campaign_questions leader level apiKey aiResult
          = .ok (get_fallback_questions leader.name level)
        ∧ (get_fallback_questions leader.name level).length = 5)
    ∧ (∀ qs, aiResult = some qs → getProfileField leader config.field ≠ "" →
        apiKey ≠ "" →
        generate_campaign_questions leader level apiKey aiResult = .ok qs) := by
  refine ⟨?_, ?_, ?_⟩
  · by_cases hcon : getProfileField leader config.field = ""
    · exact ⟨get_fallback_questions leader.name level,
        by simp [generate_campaign_questions, hlevel, hcon]⟩
    · by_cases hkey : apiKey = ""
      · exact ⟨get_fallback_questions leader.name level,
          by simp [generate_campaign_questions, hlevel, hcon, hkey]⟩
      · rcases aiResult with _ | qs
        · exact ⟨get_fallback_questions leader.name level,
            by simp [generate_campaign_questions, hlevel, hcon, hkey]⟩
        · exact ⟨qs, by simp [generate_campaign_questions, hlevel, hcon, hkey]⟩
  · intro h
    refine ⟨?_, by simp [get_fallback_questions]⟩
    rcases h with hcon | hkey | hai
    · simp [generate_campaign_questions, hlevel, hcon]
    · by_cases hcon : getProfileField leader config.field = ""
      · simp [generate_campaign_questions, hlevel, hcon]
      · simp [generate_campaign_questions, hlevel, hcon, hkey]
    · subst hai
      by_cases hcon : getProfileField leader config.field = ""
      · simp [generate_campaign_questions, hlevel, hcon]
      · by_cases hkey : apiKey = ""
        · simp [generate_campaign_questions, hlevel, hcon, hkey]
        · simp [generate_campaign_questions, hlevel, hcon, hkey]
  · intro qs hai hcon hkey
    subst hai
    simp [generate_campaign_questions, hlevel, hcon, hkey]

/-- Witness for `questions_fallback_spec` at level 2 with an empty
manifesto: the fallback set of exactly 5 records is served. -/
theorem questions_fallback_spec_witness :
    (∃ qs, generate_campaign_questions ⟨"Lead", "Pres", "stuff", "", "fun"⟩ 2
        "key" none = .ok qs)
    ∧ (generate_campaign_questions ⟨"Lead", "Pres", "stuff", "", "fun"⟩ 2
          "key" none
        = .ok (get_fallback_questions
            (LeaderProfileR.mk "Lead" "Pres" "stuff" "" "fun").name 2)
      ∧ (get_fallback_questions
          (LeaderProfileR.mk "Lead" "Pres" "stuff" "" "fun").name 2).length = 5) :=
  ⟨(questions_fallback_spec ⟨"Lead", "Pres", "stuff", "", "fun"⟩ 2 "key" none
      ⟨"manifesto"⟩ rfl).1,
    (questions_fallback_spec ⟨"Lead", "Pres", "stuff", "", "fun"⟩ 2 "key" none
      ⟨"manifesto"⟩ rfl).2.1 (Or.inl rfl)⟩

/-- Claim C9 counterexample: a collaborator reply that parses to a single
question record is returned as-is — the question set served has length 1,
not 5. -/
theorem questions_not_always_five :
    generate_campaign_questions ⟨"Lead", "Pres", "did things", "", ""⟩ 1 "key"
        (some [⟨"q", ["a", "b", "c", "d"], "A", "e"⟩])
      = .ok [⟨"q", ["a", "b", "c", "d"], "A", "e"⟩]
    ∧ ([Question.mk "q" ["a", "b", "c", "d"] "A" "e"]).length ≠ 5 := by
  exact ⟨rfl, by decide⟩

/-- Claim C10: for any level outside \x7b1, 2, 3\x7d the dict lookup
`LEVEL_CONFIGS[level]` raises KeyError before any fallback branch can run,
so the questions request crashes; for levels 1-3 generation is total. -/
theorem questions_unknown_level_keyerror (level : Int)
    (h1 : level ≠ 1) (h2 : level ≠ 2) (h3 : level ≠ 3)
    (leader : LeaderProfileR) (apiKey : String)
    (aiResult : Option (List Question)) :
    generate_campaign_questions leader level apiKey aiResult = .error "KeyError"
    ∧ LEVEL_CONFIGS level = none
    ∧ (∀ l2 : Int, (l2 = 1 ∨ l2 = 2 ∨ l2 = 3) →
        ∃ qs, generate_campaign_questions leader l2 apiKey aiResult = .ok qs) := by
  have hn : LEVEL_CONFIGS level = none := by
    simp [LEVEL_CONFIGS, h1, h2, h3]
  refine ⟨by simp [generate_campaign_questions, hn], hn, ?_⟩
  intro l2 hl2
  have hconf : ∃ c, LEVEL_CONFIGS l2 = some c := by
    rcases hl2 with rfl | rfl | rfl <;> exact ⟨_, rfl⟩
  rcases hconf with ⟨c, hc⟩
  by_cases hcon : getProfileField leader c.field = ""
  · exact ⟨get_fallback_questions leader.name l2,
      by simp [generate_campaign_questions, hc, hcon]⟩
  · by_cases hkey : apiKey = ""
    · exact ⟨get_fallback_questions leader.name l2,
        by simp [generate_campaign_questions, hc, hcon, hkey]⟩
    · rcases aiResult with _ | qs
      · exact ⟨get_fallback_questions leader.name l2,
          by simp [generate_campaign_questions, hc, hcon, hkey]⟩
      · exact ⟨qs, by simp [generate_campaign_questions, hc, hcon, hkey]⟩

/-- Witness for `questions_unknown_level_keyerror` at level 7. -/
theorem questions_unknown_level_keyerror_witness :
    generate_campaign_questions ⟨"Lead", "Pres", "a", "b", "c"⟩ 7 "key" none
        = .error "KeyError"
    ∧ LEVEL_CONFIGS 7 = none
    ∧ (∀ l2 : Int, (l2 = 1 ∨ l2 = 2 ∨ l2 = 3) →
        ∃ qs, generate_campaign_questions ⟨"Lead", "Pres", "a", "b", "c"⟩ l2
          "key" none = .ok qs) :=
  questions_unknown_level_keyerror 7 (by decide) (by decide) (by decide)
    ⟨"Lead", "Pres", "a", "b", "c"⟩ "key" none

end QuizRush
